import Mathlib

/-
Verification of the alliance-squawk monitoring services.

Shallow embedding conventions:
- Rust HashMap<EsiID, V> is modelled as an association list `List (Nat × V)`
  with insert-or-replace (`alInsert`), first-match lookup (`alGet`) and
  remove (`alRemove`); every map built by the embedded code keeps its keys
  duplicate-free (`keysNodup`), matching the HashMap key-uniqueness
  invariant.  Iteration order is the insertion order, a deterministic
  refinement of the unspecified HashMap iteration order; all properties
  proved about iteration results are order-insensitive.
- EsiID (u64) is modelled as Nat: the services only compare ids for
  equality, never do arithmetic on them.
- f32 metric values and thresholds are modelled as rationals: the embedded
  code only performs order comparisons on them, never arithmetic, and the
  f32 order agrees with the rational order on the literals involved.
- Asynchronous fallible upstream calls (the esi client) are modelled as
  oracle arguments: an `Option`/`Except` value, or a function producing
  one, supplied per call site.  The error payload is opaque (`Unit`).
- The unbounded notification channel is modelled by accumulating the sent
  messages in a list; the `channelOpen : Bool` argument tells whether a
  send succeeds (a dropped receiver makes every send fail).
-/

/- ------------------------------------------------------------------ -/
/- Association-list model of HashMap                                   -/
/- ------------------------------------------------------------------ -/

def alGet {β : Type} (k : Nat) : List (Nat × β) → Option β
  | [] => none
  | p :: rest => if p.1 = k then some p.2 else alGet k rest

def alInsert {β : Type} (k : Nat) (v : β) : List (Nat × β) → List (Nat × β)
  | [] => [(k, v)]
  | p :: rest => if p.1 = k then (k, v) :: rest else p :: alInsert k v rest

def alRemove {β : Type} (k : Nat) : List (Nat × β) → List (Nat × β)
  | [] => []
  | p :: rest => if p.1 = k then rest else p :: alRemove k rest

def keysNodup {β : Type} (m : List (Nat × β)) : Prop :=
  (m.map Prod.fst).Nodup

/- ------------------------------------------------------------------ -/
/- Occurrence counts                                                   -/
/- ------------------------------------------------------------------ -/

def occ (c : Nat) : List Nat → Nat
  | [] => 0
  | a :: rest => (if a = c then 1 else 0) + occ c rest

/- ------------------------------------------------------------------ -/
/- Membership delta algorithm (corporations_service.rs, lines 184-223) -/
/- ------------------------------------------------------------------ -/

inductive AllianceOp
  | Add (corporation_id : Nat)
  | Del (corporation_id : Nat)
deriving DecidableEq, Repr

-- First loop of corporation_alliance_delta: tally +1 per old occurrence.
def bumpOld (m : List (Nat × Int)) (c : Nat) : List (Nat × Int) :=
  match alGet c m with
  | some rep => alInsert c (rep + 1) m
  | none => alInsert c 1 m

-- Second loop: tally -1 per new occurrence.
def bumpNew (m : List (Nat × Int)) (c : Nat) : List (Nat × Int) :=
  match alGet c m with
  | some rep => alInsert c (rep - 1) m
  | none => alInsert c (-1) m

def repetitions (old_corporations new_corporations : List Nat) :
    List (Nat × Int) :=
  new_corporations.foldl bumpNew (old_corporations.foldl bumpOld [])

-- Final loop: a positive tally pushes Del, a negative tally pushes Add.
def pushOp (ops : List AllianceOp) (p : Nat × Int) : List AllianceOp :=
  if p.2 > 0 then ops ++ [AllianceOp.Del p.1]
  else if p.2 < 0 then ops ++ [AllianceOp.Add p.1]
  else ops

def corporation_alliance_delta (old_corporations new_corporations : List Nat) :
    List AllianceOp :=
  (repetitions old_corporations new_corporations).foldl pushOp []

-- The spec reads the op list as a set of edits on the old roster: drop the
-- deleted ids, append the added ones.
def applyOps (ops : List AllianceOp) (a : List Nat) : List Nat :=
  a.filter (fun c => decide (AllianceOp.Del c ∉ ops)) ++
    ops.filterMap (fun op =>
      match op with
      | AllianceOp.Add c => some c
      | AllianceOp.Del _ => none)

def swapOp : AllianceOp → AllianceOp
  | AllianceOp.Add c => AllianceOp.Del c
  | AllianceOp.Del c => AllianceOp.Add c

/- ------------------------------------------------------------------ -/
/- ADM data model (adm_service.rs, adm_configuration.rs, esi.rs)       -/
/- ------------------------------------------------------------------ -/

-- Status (adm_service.rs lines 10-15); the f32 payload is a rational.
inductive Status
  | Good (adm : ℚ)
  | Warning (adm : ℚ)
  | Critical (adm : ℚ)
deriving DecidableEq, Repr

-- SystemAdm (adm_service.rs lines 17-21).
structure SystemAdm where
  system_id : Nat
  status : Status
deriving DecidableEq, Repr

-- BotNotification (bot.rs lines 20-25).  The NotifyCorpJoinAlliance
-- variant exists in the source but the corporations service never sends
-- it; it is kept here so that fact is visible in the theorems.
inductive BotNotification
  | NotifyCorpJoinAlliance (alliance_id corporation_id : Nat)
  | NotifyCorpLeftAlliance (alliance_id corporation_id : Nat)
  | NotifyAdm (system_adm : SystemAdm)
deriving DecidableEq, Repr

-- Importance and its thresholds (adm_configuration.rs lines 7-30).
inductive Importance
  | Red
  | Yellow
  | Green
deriving DecidableEq, Repr

def Importance.warning_threshold : Importance → ℚ
  | Importance.Red => 4.2
  | Importance.Yellow => 3.2
  | Importance.Green => 1.2

def Importance.critical_threshold : Importance → ℚ
  | Importance.Red => 4.0
  | Importance.Yellow => 3.0
  | Importance.Green => 1.0

-- select_adm_status (adm_service.rs lines 121-130).
def select_adm_status (adm warning_threshold critical_threshold : ℚ) : Status :=
  let is_critical_state := decide (adm ≤ critical_threshold)
  let is_warning_state := decide (adm ≤ warning_threshold)
  match is_warning_state, is_critical_state with
  | _, true => Status.Critical adm
  | true, _ => Status.Warning adm
  | _, _ => Status.Good adm

-- System record (esi.rs lines 54-60).
structure System where
  system_id : Nat
  constellation_id : Nat
  name : String
  security_status : ℚ
deriving DecidableEq, Repr

-- SovereigntyStructure record (esi.rs lines 43-52).
structure SovereigntyStructure where
  alliance_id : Nat
  solar_system_id : Nat
  structure_id : Nat
  structure_type_id : Nat
  vulnerability_occupancy_level : Option ℚ
  vulnerable_end_time : Option String
  vulnerable_start_time : Option String
deriving DecidableEq, Repr

def TCU_STRUCTURE_ID : Nat := 32226

/- ------------------------------------------------------------------ -/
/- AdmService.get_adm_status (adm_service.rs lines 49-119)             -/
/- ------------------------------------------------------------------ -/

-- The esi fetch, the information-service lookup and the configuration
-- store are oracles.  The per-structure body is modelled in the Option
-- monad where `none` stands for the unwrap failing on a missing
-- occupancy level; get_adm_status returning `some` on every input is
-- the totality property the filter guarantees.
def adm_status_step (getSys : Nat → Except Unit System)
    (cfg : String → Option Importance)
    (acc : Option (List SystemAdm)) (sov_structure : SovereigntyStructure) :
    Option (List SystemAdm) :=
  match acc with
  | none => none
  | some systems =>
    match sov_structure.vulnerability_occupancy_level with
    | none => none
    | some adm =>
      match getSys sov_structure.solar_system_id with
      | Except.ok system =>
        let importance := (cfg system.name).getD Importance.Green
        let adm_warning_threshold := importance.warning_threshold
        let adm_critical_threshold := importance.critical_threshold
        let status := select_adm_status adm adm_warning_threshold
          adm_critical_threshold
        some (systems ++ [⟨sov_structure.solar_system_id, status⟩])
      | Except.error _ => some systems

def sovFilter (alliance_id : Nat) (include_tcus : Bool)
    (structures : List SovereigntyStructure) : List SovereigntyStructure :=
  structures.filter (fun s =>
    s.alliance_id == alliance_id &&
    (include_tcus || s.structure_type_id != TCU_STRUCTURE_ID) &&
    s.vulnerability_occupancy_level.isSome)

def get_adm_status (alliance_id : Nat) (include_tcus : Bool)
    (getSys : Nat → Except Unit System) (cfg : String → Option Importance)
    (fetched : Except Unit (List SovereigntyStructure)) :
    Option (List SystemAdm) :=
  let structures :=
    match fetched with
    | Except.ok l => l
    | Except.error _ => []
  (sovFilter alliance_id include_tcus structures).foldl
    (adm_status_step getSys cfg) (some [])

/- ------------------------------------------------------------------ -/
/- AdmNotificationService (adm_notification_service.rs lines 31-64)    -/
/- ------------------------------------------------------------------ -/

-- The match on (system_adm.status, prev_adm) deciding whether a
-- notification is sent (lines 39-52).
def shouldNotify (status : Status) (prev_adm : Option Status) : Bool :=
  match status, prev_adm with
  | Status.Warning _, some (Status.Good _) => true
  | Status.Critical _, some (Status.Warning _) => true
  | Status.Warning _, none => true
  | Status.Critical _, none => true
  | _, _ => false

-- One notification pass: walks the computed statuses, removes the prior
-- history entry, sends when shouldNotify holds, aborts with the third
-- component false when a send fails (closed channel), and re-inserts
-- the new status only when no send failure occurred for that system.
def send_adm_notifications (channelOpen : Bool) :
    List (Nat × Status) → List SystemAdm →
      List (Nat × Status) × List BotNotification × Bool
  | history, [] => (history, [], true)
  | history, system_adm :: rest =>
    let prev_adm := alGet system_adm.system_id history
    let history1 := alRemove system_adm.system_id history
    if shouldNotify system_adm.status prev_adm then
      if channelOpen then
        let history2 := alInsert system_adm.system_id system_adm.status history1
        let r := send_adm_notifications channelOpen history2 rest
        (r.1, BotNotification.NotifyAdm system_adm :: r.2.1, r.2.2)
      else
        (history1, [], false)
    else
      let history2 := alInsert system_adm.system_id system_adm.status history1
      send_adm_notifications channelOpen history2 rest

/- ------------------------------------------------------------------ -/
/- InformationService.get_system (information_service.rs lines 53-65)  -/
/- ------------------------------------------------------------------ -/

-- Returns the result, the updated cache map, and how many esi fetches
-- the call performed (0 or 1).
def get_system (esi : Nat → Except Unit System)
    (systems : List (Nat × System)) (id : Nat) :
    Except Unit System × List (Nat × System) × Nat :=
  match alGet id systems with
  | some system => (Except.ok system, systems, 0)
  | none =>
    match esi id with
    | Except.ok system => (Except.ok system, alInsert id system systems, 1)
    | Except.error e => (Except.error e, systems, 1)

/- ------------------------------------------------------------------ -/
/- CorporationsService.process_alliance_queue                          -/
/- (services/corporations_service.rs lines 64-154)                     -/
/- ------------------------------------------------------------------ -/

structure CorpState where
  alliance_seen : List Nat
  corporation_alliance : List (Nat × Nat)
deriving DecidableEq, Repr

-- HashSet.insert.
def seenInsert (alliance_id : Nat) (seen : List Nat) : List Nat :=
  if alliance_id ∈ seen then seen else seen ++ [alliance_id]

-- The op-application loop (lines 112-147).  On Add the corporation is
-- inserted into the membership map and nothing is sent; on Del it is
-- removed and, when the alliance was already seen, a leave notification
-- is sent; a failed send (closed channel) breaks out, returning true in
-- the third component.
def apply_ops (channelOpen send_notifications : Bool) (alliance_id : Nat) :
    List AllianceOp → List (Nat × Nat) →
      List (Nat × Nat) × List BotNotification × Bool
  | [], corporation_alliance => (corporation_alliance, [], false)
  | op :: rest, corporation_alliance =>
    match op with
    | AllianceOp.Add corporation_id =>
      apply_ops channelOpen send_notifications alliance_id rest
        (alInsert corporation_id alliance_id corporation_alliance)
    | AllianceOp.Del corporation_id =>
      let ca1 := alRemove corporation_id corporation_alliance
      if send_notifications then
        if channelOpen then
          let r := apply_ops channelOpen send_notifications alliance_id rest ca1
          (r.1,
            BotNotification.NotifyCorpLeftAlliance alliance_id corporation_id
              :: r.2.1,
            r.2.2)
        else (ca1, [], true)
      else apply_ops channelOpen send_notifications alliance_id rest ca1

-- The body of the drain loop for one popped alliance (lines 91-152).
-- The roster fetch outcome is the `fetch` oracle; `none` is the Err
-- branch (log and continue).  Returns new state, sent notifications,
-- and whether the pass aborted on a closed channel.
def process_one_alliance (channelOpen : Bool) (st : CorpState)
    (alliance_id : Nat) (fetch : Option (List Nat)) :
    CorpState × List BotNotification × Bool :=
  let old_corporations :=
    (st.corporation_alliance.filter (fun p => p.2 == alliance_id)).map Prod.fst
  let send_notifications := decide (alliance_id ∈ st.alliance_seen)
  match fetch with
  | some new_corporations =>
    let seen := seenInsert alliance_id st.alliance_seen
    let alliance_ops :=
      corporation_alliance_delta old_corporations new_corporations
    let r := apply_ops channelOpen send_notifications alliance_id alliance_ops
      st.corporation_alliance
    (⟨seen, r.1⟩, r.2.1, r.2.2)
  | none => (st, [], false)

-- The drain over the queued alliances, each paired with its roster
-- fetch outcome; stops early when a send failed.
def process_alliance_queue (channelOpen : Bool) :
    CorpState → List (Nat × Option (List Nat)) →
      CorpState × List BotNotification
  | st, [] => (st, [])
  | st, (alliance_id, fetch) :: rest =>
    let r := process_one_alliance channelOpen st alliance_id fetch
    if r.2.2 then (r.1, r.2.1)
    else
      let r2 := process_alliance_queue channelOpen r.1 rest
      (r2.1, r.2.1 ++ r2.2)

-- The four transitions of the spec, as a predicate on (new status, prior
-- history entry).
def notifyTransition (status : Status) (prev_adm : Option Status) : Prop :=
  (∃ v w, status = Status.Warning v ∧ prev_adm = some (Status.Good w)) ∨
  (∃ v w, status = Status.Critical v ∧ prev_adm = some (Status.Warning w)) ∨
  (∃ v, status = Status.Warning v ∧ prev_adm = none) ∨
  (∃ v, status = Status.Critical v ∧ prev_adm = none)

/- ------------------------------------------------------------------ -/
/- Lemmas about the association-list map model                         -/
/- ------------------------------------------------------------------ -/

theorem alGet_insert_self {β : Type} (k : Nat) (v : β) (m : List (Nat × β)) :
    alGet k (alInsert k v m) = some v := by
  induction m with
  | nil => simp [alInsert, alGet]
  | cons p rest ih =>
    by_cases h : p.1 = k
    · simp [alInsert, alGet, h]
    · simp [alInsert, alGet, h, ih]

theorem alGet_insert_ne {β : Type} {k k' : Nat} (hk : k' ≠ k) (v : β)
    (m : List (Nat × β)) : alGet k (alInsert k' v m) = alGet k m := by
  induction m with
  | nil => simp [alInsert, alGet, hk]
  | cons p rest ih =>
    by_cases h : p.1 = k'
    · subst h
      simp [alInsert, alGet, hk]
    · by_cases h2 : p.1 = k
      · simp [alInsert, alGet, h, h2, Ne.symm hk]
      · simp [alInsert, alGet, h, h2, ih]

theorem alGet_remove_ne {β : Type} {k k' : Nat} (hk : k' ≠ k)
    (m : List (Nat × β)) : alGet k (alRemove k' m) = alGet k m := by
  induction m with
  | nil => simp [alRemove, alGet]
  | cons p rest ih =>
    by_cases h : p.1 = k'
    · subst h
      simp [alRemove, alGet, hk]
    · by_cases h2 : p.1 = k
      · simp [alRemove, alGet, h, h2, Ne.symm hk]
      · simp [alRemove, alGet, h, h2, ih]

theorem mem_keys_insert {β : Type} (a k : Nat) (v : β) (m : List (Nat × β)) :
    a ∈ (alInsert k v m).map Prod.fst ↔ a = k ∨ a ∈ m.map Prod.fst := by
  induction m with
  | nil => simp [alInsert]
  | cons p rest ih =>
    by_cases h : p.1 = k
    · subst h
      simp [alInsert]
    · simp [alInsert, h, ih]
      tauto

theorem keysNodup_insert {β : Type} (k : Nat) (v : β) {m : List (Nat × β)}
    (hm : keysNodup m) : keysNodup (alInsert k v m) := by
  induction m with
  | nil => simp [keysNodup, alInsert]
  | cons p rest ih =>
    unfold keysNodup at hm ⊢
    simp only [List.map_cons, List.nodup_cons] at hm
    by_cases h : p.1 = k
    · subst h
      simpa [alInsert, keysNodup] using hm
    · have tail := ih hm.2
      simp only [alInsert, h, if_false, List.map_cons, List.nodup_cons]
      refine ⟨?_, tail⟩
      intro hmem
      rcases (mem_keys_insert p.1 k v rest).mp hmem with h1 | h1
      · exact h h1
      · exact hm.1 h1

theorem mem_iff_alGet {β : Type} {m : List (Nat × β)} (hm : keysNodup m)
    (p : Nat × β) : p ∈ m ↔ alGet p.1 m = some p.2 := by
  induction m with
  | nil => simp [alGet]
  | cons q rest ih =>
    unfold keysNodup at hm
    simp only [List.map_cons, List.nodup_cons] at hm
    constructor
    · intro hmem
      rcases List.mem_cons.mp hmem with h | h
      · subst h
        simp [alGet]
      · have hne : q.1 ≠ p.1 := by
          intro hq
          exact hm.1 (hq ▸ List.mem_map_of_mem Prod.fst h)
        simp only [alGet, hne, if_false]
        exact (ih hm.2 |>.mp h)
    · intro hget
      by_cases h : q.1 = p.1
      · simp only [alGet, h, if_true] at hget
        have : q = p := Prod.ext h (Option.some_injective _ hget)
        exact this ▸ List.mem_cons_self q rest
      · simp only [alGet, h, if_false] at hget
        exact List.mem_cons_of_mem q ((ih hm.2).mpr hget)

theorem occ_eq_zero_of_not_mem {c : Nat} {l : List Nat} (h : c ∉ l) :
    occ c l = 0 := by
  induction l with
  | nil => rfl
  | cons a rest ih =>
    simp only [List.mem_cons, not_or] at h
    have : a ≠ c := fun hac => h.1 hac.symm
    simp [occ, this, ih h.2]

theorem mem_of_occ_pos {c : Nat} {l : List Nat} (h : 0 < occ c l) : c ∈ l := by
  by_contra hc
  rw [occ_eq_zero_of_not_mem hc] at h
  exact Nat.lt_irrefl 0 h

theorem occ_of_nodup {c : Nat} {l : List Nat} (h : l.Nodup) :
    occ c l = if c ∈ l then 1 else 0 := by
  induction l with
  | nil => simp [occ]
  | cons a rest ih =>
    rcases List.nodup_cons.mp h with ⟨ha, hrest⟩
    by_cases hac : a = c
    · subst hac
      simp [occ, occ_eq_zero_of_not_mem ha]
    · have hca : c ≠ a := fun h => hac h.symm
      simp [occ, hac, ih hrest, List.mem_cons, hca]

theorem bumpOld_get (m : List (Nat × Int)) (a c : Nat) :
    alGet c (bumpOld m a) =
      if c = a then some ((alGet a m).getD 0 + 1) else alGet c m := by
  unfold bumpOld
  by_cases hca : c = a
  · subst hca
    cases h : alGet c m with
    | none => simp [h, alGet_insert_self]
    | some r => simp [h, alGet_insert_self]
  · have hac : a ≠ c := fun h => hca h.symm
    cases h : alGet a m with
    | none => simp [hca, alGet_insert_ne hac]
    | some r => simp [hca, alGet_insert_ne hac]

theorem bumpNew_get (m : List (Nat × Int)) (a c : Nat) :
    alGet c (bumpNew m a) =
      if c = a then some ((alGet a m).getD 0 - 1) else alGet c m := by
  unfold bumpNew
  by_cases hca : c = a
  · subst hca
    cases h : alGet c m with
    | none => simp [h, alGet_insert_self]
    | some r => simp [h, alGet_insert_self]
  · have hac : a ≠ c := fun h => hca h.symm
    cases h : alGet a m with
    | none => simp [hca, alGet_insert_ne hac]
    | some r => simp [hca, alGet_insert_ne hac]

theorem foldl_bumpOld_get (old : List Nat) :
    ∀ (m : List (Nat × Int)) (c : Nat),
      alGet c (old.foldl bumpOld m) =
        if c ∈ old ∨ (alGet c m).isSome then
          some ((alGet c m).getD 0 + occ c old)
        else none := by
  induction old with
  | nil =>
    intro m c
    cases h : alGet c m with
    | none => simp [h, occ]
    | some v => simp [h, occ]
  | cons a as ih =>
    intro m c
    have step : as.foldl bumpOld (bumpOld m a) = (a :: as).foldl bumpOld m := rfl
    rw [← step, ih (bumpOld m a) c, bumpOld_get]
    by_cases hca : c = a
    · subst hca
      simp only [if_pos rfl, Option.isSome_some, or_true, if_true,
        Option.getD_some, List.mem_cons, true_or, occ, if_pos rfl]
      cases h : alGet c m with
      | none => simp [h, occ]
      | some v => simp [h, occ]; omega
    · have : (c ∈ a :: as) ↔ c ∈ as := by
        simp [List.mem_cons, hca]
      simp only [if_neg hca, this, occ, if_neg (fun h : a = c => hca h.symm),
        Nat.zero_add]

theorem foldl_bumpNew_get (new : List Nat) :
    ∀ (m : List (Nat × Int)) (c : Nat),
      alGet c (new.foldl bumpNew m) =
        if c ∈ new ∨ (alGet c m).isSome then
          some ((alGet c m).getD 0 - occ c new)
        else none := by
  induction new with
  | nil =>
    intro m c
    cases h : alGet c m with
    | none => simp [h, occ]
    | some v => simp [h, occ]
  | cons a as ih =>
    intro m c
    have step : as.foldl bumpNew (bumpNew m a) = (a :: as).foldl bumpNew m := rfl
    rw [← step, ih (bumpNew m a) c, bumpNew_get]
    by_cases hca : c = a
    · subst hca
      simp only [if_pos rfl, Option.isSome_some, or_true, if_true,
        Option.getD_some, List.mem_cons, true_or, occ, if_pos rfl]
      cases h : alGet c m with
      | none => simp [h, occ]; omega
      | some v => simp [h, occ]; omega
    · have : (c ∈ a :: as) ↔ c ∈ as := by
        simp [List.mem_cons, hca]
      simp only [if_neg hca, this, occ, if_neg (fun h : a = c => hca h.symm),
        Nat.zero_add]

theorem repetitions_get (old new : List Nat) (c : Nat) :
    alGet c (repetitions old new) =
      if c ∈ old ∨ c ∈ new then some ((occ c old : Int) - occ c new)
      else none := by
  unfold repetitions
  rw [foldl_bumpNew_get, foldl_bumpOld_get]
  by_cases ho : c ∈ old
  · simp [ho, alGet]
  · have : occ c old = 0 := occ_eq_zero_of_not_mem ho
    by_cases hn : c ∈ new <;> simp [ho, hn, alGet, this]

theorem keysNodup_foldl_bumpOld (old : List Nat) :
    ∀ (m : List (Nat × Int)), keysNodup m → keysNodup (old.foldl bumpOld m) := by
  induction old with
  | nil => intro m hm; exact hm
  | cons a as ih =>
    intro m hm
    have : keysNodup (bumpOld m a) := by
      unfold bumpOld
      cases alGet a m with
      | none => exact keysNodup_insert a 1 hm
      | some r => exact keysNodup_insert a (r + 1) hm
    exact ih (bumpOld m a) this

theorem keysNodup_foldl_bumpNew (new : List Nat) :
    ∀ (m : List (Nat × Int)), keysNodup m → keysNodup (new.foldl bumpNew m) := by
  induction new with
  | nil => intro m hm; exact hm
  | cons a as ih =>
    intro m hm
    have : keysNodup (bumpNew m a) := by
      unfold bumpNew
      cases alGet a m with
      | none => exact keysNodup_insert a (-1) hm
      | some r => exact keysNodup_insert a (r - 1) hm
    exact ih (bumpNew m a) this

theorem keysNodup_repetitions (old new : List Nat) :
    keysNodup (repetitions old new) := by
  unfold repetitions
  exact keysNodup_foldl_bumpNew new _
    (keysNodup_foldl_bumpOld old [] (by simp [keysNodup]))

theorem mem_pushOp (acc : List AllianceOp) (p : Nat × Int) (op : AllianceOp) :
    op ∈ pushOp acc p ↔
      op ∈ acc ∨ (0 < p.2 ∧ op = AllianceOp.Del p.1) ∨
        (p.2 < 0 ∧ op = AllianceOp.Add p.1) := by
  unfold pushOp
  by_cases h1 : p.2 > 0
  · have h2 : ¬ p.2 < 0 := by omega
    simp [h1, h2, List.mem_append]
  · by_cases h2 : p.2 < 0
    · simp [h1, h2, List.mem_append]
    · simp [h1, h2]

theorem foldl_pushOp_mem (l : List (Nat × Int)) :
    ∀ (acc : List AllianceOp) (op : AllianceOp),
      op ∈ l.foldl pushOp acc ↔
        op ∈ acc ∨ ∃ p, p ∈ l ∧
          ((0 < p.2 ∧ op = AllianceOp.Del p.1) ∨
           (p.2 < 0 ∧ op = AllianceOp.Add p.1)) := by
  induction l with
  | nil => intro acc op; simp
  | cons q rest ih =>
    intro acc op
    have step : rest.foldl pushOp (pushOp acc q) = (q :: rest).foldl pushOp acc :=
      rfl
    rw [← step, ih (pushOp acc q) op, mem_pushOp]
    constructor
    · rintro ((h | h) | ⟨p, hp, h⟩)
      · exact Or.inl h
      · exact Or.inr ⟨q, List.mem_cons_self q rest, h⟩
      · exact Or.inr ⟨p, List.mem_cons_of_mem q hp, h⟩
    · rintro (h | ⟨p, hp, h⟩)
      · exact Or.inl (Or.inl h)
      · rcases List.mem_cons.mp hp with hq | hq
        · exact Or.inl (Or.inr (hq ▸ h))
        · exact Or.inr ⟨p, hq, h⟩

theorem delta_del_mem (old new : List Nat) (c : Nat) :
    AllianceOp.Del c ∈ corporation_alliance_delta old new ↔
      occ c new < occ c old := by
  unfold corporation_alliance_delta
  rw [foldl_pushOp_mem]
  simp only [List.not_mem_nil, false_or]
  constructor
  · rintro ⟨p, hp, (⟨hpos, heq⟩ | ⟨hneg, heq⟩)⟩
    · have hc : p.1 = c := by
        cases heq
        rfl
      have hget := (mem_iff_alGet (keysNodup_repetitions old new) p).mp hp
      rw [hc, repetitions_get] at hget
      by_cases hmem : c ∈ old ∨ c ∈ new
      · rw [if_pos hmem] at hget
        have : p.2 = (occ c old : Int) - occ c new :=
          (Option.some_injective _ hget).symm
        omega
      · rw [if_neg hmem] at hget
        exact absurd hget (by simp)
    · cases heq
  · intro h
    have hmem : c ∈ old := mem_of_occ_pos (Nat.lt_of_le_of_lt (Nat.zero_le _) h)
    refine ⟨(c, (occ c old : Int) - occ c new), ?_, Or.inl ⟨by omega, rfl⟩⟩
    rw [mem_iff_alGet (keysNodup_repetitions old new)]
    rw [repetitions_get]
    simp [hmem]

theorem delta_add_mem (old new : List Nat) (c : Nat) :
    AllianceOp.Add c ∈ corporation_alliance_delta old new ↔
      occ c old < occ c new := by
  unfold corporation_alliance_delta
  rw [foldl_pushOp_mem]
  simp only [List.not_mem_nil, false_or]
  constructor
  · rintro ⟨p, hp, (⟨hpos, heq⟩ | ⟨hneg, heq⟩)⟩
    · cases heq
    · have hc : p.1 = c := by
        cases heq
        rfl
      have hget := (mem_iff_alGet (keysNodup_repetitions old new) p).mp hp
      rw [hc, repetitions_get] at hget
      by_cases hmem : c ∈ old ∨ c ∈ new
      · rw [if_pos hmem] at hget
        have : p.2 = (occ c old : Int) - occ c new :=
          (Option.some_injective _ hget).symm
        omega
      · rw [if_neg hmem] at hget
        exact absurd hget (by simp)
  · intro h
    have hmem : c ∈ new := mem_of_occ_pos (Nat.lt_of_le_of_lt (Nat.zero_le _) h)
    refine ⟨(c, (occ c old : Int) - occ c new), ?_, Or.inr ⟨by omega, rfl⟩⟩
    rw [mem_iff_alGet (keysNodup_repetitions old new)]
    rw [repetitions_get]
    simp [hmem]

theorem mem_applyOps (ops : List AllianceOp) (a : List Nat) (c : Nat) :
    c ∈ applyOps ops a ↔
      (c ∈ a ∧ AllianceOp.Del c ∉ ops) ∨ AllianceOp.Add c ∈ ops := by
  unfold applyOps
  simp only [List.mem_append, List.mem_filter, List.mem_filterMap,
    decide_eq_true_eq]
  constructor
  · rintro (⟨h1, h2⟩ | ⟨op, hop, hmatch⟩)
    · exact Or.inl ⟨h1, h2⟩
    · cases op with
      | Add d =>
        simp only [Option.some_inj] at hmatch
        exact Or.inr (hmatch ▸ hop)
      | Del d => cases hmatch
  · rintro (⟨h1, h2⟩ | h)
    · exact Or.inl ⟨h1, h2⟩
    · exact Or.inr ⟨AllianceOp.Add c, h, rfl⟩

/- ------------------------------------------------------------------ -/
/- Helper lemmas about the services                                    -/
/- ------------------------------------------------------------------ -/

theorem shouldNotify_iff (status : Status) (prev : Option Status) :
    shouldNotify status prev = true ↔ notifyTransition status prev := by
  cases status with
  | Good v =>
    rcases prev with _ | p
    · simp [shouldNotify, notifyTransition]
    · cases p <;> simp [shouldNotify, notifyTransition]
  | Warning v =>
    rcases prev with _ | p
    · simp [shouldNotify, notifyTransition]
    · cases p <;> simp [shouldNotify, notifyTransition]
  | Critical v =>
    rcases prev with _ | p
    · simp [shouldNotify, notifyTransition]
    · cases p <;> simp [shouldNotify, notifyTransition]

theorem send_step_true (history : List (Nat × Status)) (a : SystemAdm)
    (rest : List SystemAdm) :
    send_adm_notifications true history (a :: rest) =
      ((send_adm_notifications true
          (alInsert a.system_id a.status (alRemove a.system_id history))
          rest).1,
       (if shouldNotify a.status (alGet a.system_id history) then
          BotNotification.NotifyAdm a ::
            (send_adm_notifications true
              (alInsert a.system_id a.status (alRemove a.system_id history))
              rest).2.1
        else
          (send_adm_notifications true
            (alInsert a.system_id a.status (alRemove a.system_id history))
            rest).2.1),
       (send_adm_notifications true
          (alInsert a.system_id a.status (alRemove a.system_id history))
          rest).2.2) := by
  by_cases h : shouldNotify a.status (alGet a.system_id history) <;>
    simp [send_adm_notifications, h]

theorem send_pass_preserves (adms : List SystemAdm) :
    ∀ (history : List (Nat × Status)) (s : Nat),
      s ∉ adms.map SystemAdm.system_id →
      alGet s (send_adm_notifications true history adms).1 = alGet s history := by
  induction adms with
  | nil => intro history s _; rfl
  | cons a rest ih =>
    intro history s hs
    simp only [List.map_cons, List.mem_cons, not_or] at hs
    have hne : a.system_id ≠ s := fun h => hs.1 h.symm
    rw [send_step_true]
    simp only
    rw [ih _ s hs.2, alGet_insert_ne hne, alGet_remove_ne hne]

theorem apply_ops_silent (channelOpen : Bool) (alliance_id : Nat)
    (ops : List AllianceOp) :
    ∀ ca, (apply_ops channelOpen false alliance_id ops ca).2.1 = [] ∧
      (apply_ops channelOpen false alliance_id ops ca).2.2 = false := by
  induction ops with
  | nil => intro ca; exact ⟨rfl, rfl⟩
  | cons op rest ih =>
    intro ca
    cases op with
    | Add c => exact ih _
    | Del c => simpa [apply_ops] using ih (alRemove c ca)

theorem select_adm_status_eq (adm w c : ℚ) :
    select_adm_status adm w c =
      if adm ≤ c then Status.Critical adm
      else if adm ≤ w then Status.Warning adm
      else Status.Good adm := by
  unfold select_adm_status
  by_cases h1 : adm ≤ c <;> by_cases h2 : adm ≤ w <;> simp [h1, h2]

theorem mem_sovFilter_isSome {alliance_id : Nat} {include_tcus : Bool}
    {l : List SovereigntyStructure} {s : SovereigntyStructure}
    (h : s ∈ sovFilter alliance_id include_tcus l) :
    s.vulnerability_occupancy_level.isSome = true := by
  unfold sovFilter at h
  rcases List.mem_filter.mp h with ⟨_, hcond⟩
  simp only [Bool.and_eq_true] at hcond
  exact hcond.2

theorem adm_fold_some (getSys : Nat → Except Unit System)
    (cfg : String → Option Importance) (l : List SovereigntyStructure)
    (h : ∀ s ∈ l, s.vulnerability_occupancy_level.isSome = true) :
    ∀ (acc : List SystemAdm),
      (l.foldl (adm_status_step getSys cfg) (some acc)).isSome = true := by
  induction l with
  | nil => intro acc; rfl
  | cons s rest ih =>
    intro acc
    have hs := h s (List.mem_cons_self s rest)
    have hrest : ∀ t ∈ rest, t.vulnerability_occupancy_level.isSome = true :=
      fun t ht => h t (List.mem_cons_of_mem s ht)
    rw [List.foldl_cons]
    rcases hv : s.vulnerability_occupancy_level with _ | adm
    · rw [hv] at hs
      cases hs
    · show (rest.foldl (adm_status_step getSys cfg)
        (adm_status_step getSys cfg (some acc) s)).isSome = true
      unfold adm_status_step
      rw [hv]
      cases hg : getSys s.solar_system_id with
      | ok system =>
        have := ih hrest
        simp only [hg]
        exact ih hrest _
      | error e =>
        simp only [hg]
        exact ih hrest acc

/- ------------------------------------------------------------------ -/
/- Claim theorems                                                      -/
/- ------------------------------------------------------------------ -/

/-- Claim C1, evaluated at the concrete scenario of the claim: alliance 5
is already in SeenAlliances, its tracked roster is {10, 20} and the
fetched roster is {20, 30}.  The code applies Del 10 and Add 30 to
CorporationMembership as the claim says, but it emits only the single
leave notification for corporation 10: the Add branch of the op loop
inserts into the map and sends nothing, so no join notification for
corporation 30 exists and the total is one notification, not two. -/
theorem C1_add_emits_no_join :
    process_one_alliance true ⟨[5], [(10, 5), (20, 5)]⟩ 5 (some [20, 30]) =
      (⟨[5], [(20, 5), (30, 5)]⟩,
       [BotNotification.NotifyCorpLeftAlliance 5 10], false) := rfl

/-- Claim C2 counterexample: for the input lists A = [1,1], B = [1] the id 1
is present in both lists, yet the delta emits Del 1 for it, and applying
the emitted ops to A does not yield B as a set (1 is lost). -/
theorem C2_counterexample :
    corporation_alliance_delta [1, 1] [1] = [AllianceOp.Del 1] ∧
    (1 : Nat) ∈ [1, 1] ∧ (1 : Nat) ∈ ([1] : List Nat) ∧
    ¬ ((1 : Nat) ∈ applyOps (corporation_alliance_delta [1, 1] [1]) [1, 1] ↔
        (1 : Nat) ∈ ([1] : List Nat)) := by
  refine ⟨rfl, by decide, by decide, ?_⟩
  decide

/-- Claim C2 (amended): for duplicate-free input lists A (old) and B (new),
applying the emitted ops to A yields exactly B as a set and no op is
emitted for an id present in both; for arbitrary lists the signed-tally
behaviour holds: equal occurrence counts give no op, more occurrences in
A give Del, more in B give Add. -/
theorem C2_delta_correct (A B : List Nat) :
    (A.Nodup → B.Nodup →
      ∀ c, (c ∈ applyOps (corporation_alliance_delta A B) A ↔ c ∈ B)) ∧
    (A.Nodup → B.Nodup →
      ∀ c, c ∈ A → c ∈ B →
        AllianceOp.Add c ∉ corporation_alliance_delta A B ∧
        AllianceOp.Del c ∉ corporation_alliance_delta A B) ∧
    (∀ c, occ c A = occ c B →
      AllianceOp.Add c ∉ corporation_alliance_delta A B ∧
      AllianceOp.Del c ∉ corporation_alliance_delta A B) ∧
    (∀ c, occ c B < occ c A →
      AllianceOp.Del c ∈ corporation_alliance_delta A B) ∧
    (∀ c, occ c A < occ c B →
      AllianceOp.Add c ∈ corporation_alliance_delta A B) := by
  refine ⟨?_, ?_, ?_, ?_, ?_⟩
  · intro hA hB c
    rw [mem_applyOps, delta_del_mem, delta_add_mem, occ_of_nodup hA,
      occ_of_nodup hB]
    by_cases hA' : c ∈ A <;> by_cases hB' : c ∈ B <;> simp [hA', hB']
  · intro hA hB c hcA hcB
    rw [delta_add_mem, delta_del_mem, occ_of_nodup hA, occ_of_nodup hB]
    simp [hcA, hcB]
  · intro c h
    rw [delta_add_mem, delta_del_mem]
    omega
  · intro c h
    rw [delta_del_mem]
    exact h
  · intro c h
    rw [delta_add_mem]
    exact h

/-- Witness for the amended C2 at the spec scenario old = [1,2,3],
new = [2,4]: Del 1 is emitted and applying the ops makes 4 a member. -/
theorem C2_delta_correct_witness :
    AllianceOp.Del 1 ∈ corporation_alliance_delta [1, 2, 3] [2, 4] ∧
    (4 : Nat) ∈ applyOps (corporation_alliance_delta [1, 2, 3] [2, 4])
      [1, 2, 3] :=
  ⟨(C2_delta_correct [1, 2, 3] [2, 4]).2.2.2.1 1 (by decide),
   ((C2_delta_correct [1, 2, 3] [2, 4]).1 (by decide) (by decide) 4).mpr
     (by decide)⟩

/-- Claim C3: for every computed status and prior history entry, the
notification pass over that single system emits a notification iff the
transition is Good to Warning, Warning to Critical, none to Warning or
none to Critical; every other transition emits nothing. -/
theorem C3_notifier_edge_triggered (history : List (Nat × Status)) (s : Nat)
    (status : Status) :
    (send_adm_notifications true history [⟨s, status⟩]).2.1 ≠ [] ↔
      notifyTransition status (alGet s history) := by
  rw [← shouldNotify_iff]
  by_cases h : shouldNotify status (alGet s history) <;>
    simp [send_adm_notifications, h]

/-- Claim C4: with critical_threshold ≤ warning_threshold the
classification is Critical for metric ≤ critical (priority over the
warning check), else Warning for metric ≤ warning, else Good; the
concrete Red scenarios and the boundary metric 1.0 behave as claimed. -/
theorem C4_classification (adm w c : ℚ) (h : c ≤ w) :
    ((adm ≤ c → select_adm_status adm w c = Status.Critical adm) ∧
     (c < adm → adm ≤ w → select_adm_status adm w c = Status.Warning adm) ∧
     (w < adm → select_adm_status adm w c = Status.Good adm)) ∧
    select_adm_status 4.1 Importance.Red.warning_threshold
      Importance.Red.critical_threshold = Status.Warning 4.1 ∧
    select_adm_status 3.9 Importance.Red.warning_threshold
      Importance.Red.critical_threshold = Status.Critical 3.9 ∧
    select_adm_status 4.3 Importance.Red.warning_threshold
      Importance.Red.critical_threshold = Status.Good 4.3 ∧
    select_adm_status 1.0 1.2 1.0 = Status.Critical 1.0 := by
  refine ⟨⟨?_, ?_, ?_⟩, ?_, ?_, ?_, ?_⟩
  · intro hc
    rw [select_adm_status_eq, if_pos hc]
  · intro hc hw
    rw [select_adm_status_eq, if_neg (not_le.mpr hc), if_pos hw]
  · intro hw
    have hc : ¬ adm ≤ c := not_le.mpr (lt_of_le_of_lt h hw)
    rw [select_adm_status_eq, if_neg hc, if_neg (not_le.mpr hw)]
  · rw [select_adm_status_eq]
    norm_num [Importance.warning_threshold, Importance.critical_threshold]
  · rw [select_adm_status_eq]
    norm_num [Importance.warning_threshold, Importance.critical_threshold]
  · rw [select_adm_status_eq]
    norm_num [Importance.warning_threshold, Importance.critical_threshold]
  · rw [select_adm_status_eq]
    norm_num

/-- Witness for C4: Green thresholds (warning 1.2, critical 1.0) classify
metric 0.9 as Critical. -/
theorem C4_classification_witness :
    select_adm_status 0.9 1.2 1.0 = Status.Critical 0.9 :=
  (C4_classification 0.9 1.2 1.0 (by norm_num)).1.1 (by norm_num)

/-- Claim C5 counterexample: with prior history {1 : Good 5} and computed
status Warning 3 for system 1, a closed channel makes the send fail, the
pass aborts (third component false) and the StatusHistory entry for
system 1 is gone rather than overwritten with the new status: the prior
entry was removed and the new one never inserted. -/
theorem C5_counterexample :
    (send_adm_notifications false [(1, Status.Good 5)]
        [⟨1, Status.Warning 3⟩]).2.2 = false ∧
    alGet 1 (send_adm_notifications false [(1, Status.Good 5)]
        [⟨1, Status.Warning 3⟩]).1 = none ∧
    alGet 1 (send_adm_notifications false [(1, Status.Good 5)]
        [⟨1, Status.Warning 3⟩]).1 ≠ some (Status.Warning 3) := by
  refine ⟨rfl, rfl, ?_⟩
  intro hcontra
  rw [show alGet 1 (send_adm_notifications false [(1, Status.Good 5)]
      [⟨1, Status.Warning 3⟩]).1 = none from rfl] at hcontra
  exact Option.noConfusion hcontra

/-- Claim C5 (amended): when no channel-send failure occurs (open
channel), StatusHistory maps every processed system to its newly
computed status after the pass, whether or not a notification fired;
on a send failure the pass aborts with that system's prior entry
removed and no new entry inserted (see the counterexample). -/
theorem C5_history_overwritten (history : List (Nat × Status))
    (adms : List SystemAdm) (h : (adms.map SystemAdm.system_id).Nodup) :
    ∀ adm ∈ adms,
      alGet adm.system_id (send_adm_notifications true history adms).1 =
        some adm.status := by
  induction adms generalizing history with
  | nil => intro adm hadm; cases hadm
  | cons a rest ih =>
    simp only [List.map_cons, List.nodup_cons] at h
    intro adm hadm
    rcases List.mem_cons.mp hadm with heq | hmem
    · subst heq
      rw [send_step_true]
      simp only
      rw [send_pass_preserves rest _ adm.system_id h.1, alGet_insert_self]
    · rw [send_step_true]
      simp only
      exact ih _ h.2 adm hmem

/-- Witness for the amended C5: a fresh system processed with an open
channel ends with its entry in the history. -/
theorem C5_history_overwritten_witness :
    alGet 7 (send_adm_notifications true []
        [⟨7, Status.Good 5⟩]).1 = some (Status.Good 5) :=
  C5_history_overwritten [] [⟨7, Status.Good 5⟩] (by simp)
    ⟨7, Status.Good 5⟩ (by simp)

/-- Claim C6: an alliance not yet in SeenAlliances produces no
notifications when processed, whatever the roster fetch returns, and it
ends up in SeenAlliances exactly when the fetch succeeded. -/
theorem C6_first_refresh_silent (channelOpen : Bool) (st : CorpState)
    (alliance_id : Nat) (fetch : Option (List Nat))
    (h : alliance_id ∉ st.alliance_seen) :
    (process_one_alliance channelOpen st alliance_id fetch).2.1 = [] ∧
    ((alliance_id ∈
        (process_one_alliance channelOpen st alliance_id fetch).1.alliance_seen)
      ↔ fetch.isSome = true) := by
  cases fetch with
  | none => simp [process_one_alliance, h]
  | some new_corporations =>
    have hd : decide (alliance_id ∈ st.alliance_seen) = false := by
      simp [h]
    constructor
    · simp only [process_one_alliance, hd]
      exact (apply_ops_silent channelOpen alliance_id _ _).1
    · simp [process_one_alliance, hd, seenInsert, h, List.mem_append]

/-- Witness for C6: an unseen alliance with a successful fetch emits
nothing and becomes seen. -/
theorem C6_first_refresh_silent_witness :
    (process_one_alliance true ⟨[], []⟩ 5 (some [10, 20])).2.1 = [] ∧
    ((5 ∈ (process_one_alliance true ⟨[], []⟩ 5
        (some [10, 20])).1.alliance_seen)
      ↔ (some [10, 20] : Option (List Nat)).isSome = true) :=
  C6_first_refresh_silent true ⟨[], []⟩ 5 (some [10, 20]) (by simp)

/-- Claim C7: the read-through cache returns a present entry with no
upstream fetch; on a miss it fetches, inserts and returns the fetched
value; on fetch failure the error propagates and the map is unchanged;
across two sequential gets of an uncached id whose fetch succeeds the
upstream is invoked exactly once and both calls return the same value. -/
theorem C7_read_through_cache (esi : Nat → Except Unit System)
    (systems : List (Nat × System)) (id : Nat) :
    (∀ s, alGet id systems = some s →
      get_system esi systems id = (Except.ok s, systems, 0)) ∧
    (∀ v, alGet id systems = none → esi id = Except.ok v →
      get_system esi systems id = (Except.ok v, alInsert id v systems, 1)) ∧
    (∀ e, alGet id systems = none → esi id = Except.error e →
      get_system esi systems id = (Except.error e, systems, 1)) ∧
    (∀ v, alGet id systems = none → esi id = Except.ok v →
      (get_system esi systems id).2.2 +
        (get_system esi (get_system esi systems id).2.1 id).2.2 = 1 ∧
      (get_system esi systems id).1 = Except.ok v ∧
      (get_system esi (get_system esi systems id).2.1 id).1 = Except.ok v) := by
  refine ⟨?_, ?_, ?_, ?_⟩
  · intro s hs
    simp [get_system, hs]
  · intro v h1 h2
    simp [get_system, h1, h2]
  · intro e h1 h2
    simp [get_system, h1, h2]
  · intro v h1 h2
    have r1 : get_system esi systems id =
        (Except.ok v, alInsert id v systems, 1) := by
      simp [get_system, h1, h2]
    have r2 : get_system esi (alInsert id v systems) id =
        (Except.ok v, alInsert id v systems, 0) := by
      simp [get_system, alGet_insert_self]
    rw [r1]
    simp only
    rw [r2]
    simp

/-- Witness for C7: a cold cache, one successful fetch, one fetch across
two sequential gets of the same id. -/
theorem C7_read_through_cache_witness :
    (get_system (fun _ => Except.ok ⟨30000142, 20000020, "Jita", 0.9⟩)
        [] 30000142).2.2 +
      (get_system (fun _ => Except.ok ⟨30000142, 20000020, "Jita", 0.9⟩)
        (get_system (fun _ => Except.ok ⟨30000142, 20000020, "Jita", 0.9⟩)
          [] 30000142).2.1 30000142).2.2 = 1 ∧
    (get_system (fun _ => Except.ok ⟨30000142, 20000020, "Jita", 0.9⟩)
        [] 30000142).1 =
      Except.ok ⟨30000142, 20000020, "Jita", 0.9⟩ ∧
    (get_system (fun _ => Except.ok ⟨30000142, 20000020, "Jita", 0.9⟩)
        (get_system (fun _ => Except.ok ⟨30000142, 20000020, "Jita", 0.9⟩)
          [] 30000142).2.1 30000142).1 =
      Except.ok ⟨30000142, 20000020, "Jita", 0.9⟩ :=
  (C7_read_through_cache
      (fun _ => Except.ok ⟨30000142, 20000020, "Jita", 0.9⟩)
      [] 30000142).2.2.2
    ⟨30000142, 20000020, "Jita", 0.9⟩ rfl rfl

/-- Claim C8: a failed roster fetch leaves the state untouched for that
alliance (no ops, no notifications, not marked seen) and the drain
continues with the next queued alliance instead of aborting. -/
theorem C8_fetch_failure_skips (channelOpen : Bool) (st : CorpState)
    (alliance_id : Nat) (rest : List (Nat × Option (List Nat))) :
    process_one_alliance channelOpen st alliance_id none = (st, [], false) ∧
    process_alliance_queue channelOpen st ((alliance_id, none) :: rest) =
      process_alliance_queue channelOpen st rest := by
  constructor
  · rfl
  · simp [process_alliance_queue, process_one_alliance]

/-- Claim C9: the delta is symmetric under swapping its arguments: an op
is emitted by delta(A,B) iff the relabelled op (Add and Del exchanged,
same id) is emitted by delta(B,A). -/
theorem C9_delta_symmetric (A B : List Nat) (op : AllianceOp) :
    op ∈ corporation_alliance_delta A B ↔
      swapOp op ∈ corporation_alliance_delta B A := by
  cases op with
  | Add c =>
    rw [delta_add_mem]
    show _ ↔ AllianceOp.Del c ∈ corporation_alliance_delta B A
    rw [delta_del_mem]
  | Del c =>
    rw [delta_del_mem]
    show _ ↔ AllianceOp.Add c ∈ corporation_alliance_delta B A
    rw [delta_add_mem]

/-- Claim C10: every structure surviving the filter carries an occupancy
metric, so the per-structure unwrap never fails and get_adm_status is
total: it returns some result for every fetch outcome and every pair of
oracles. -/
theorem C10_unwrap_total (alliance_id : Nat) (include_tcus : Bool)
    (getSys : Nat → Except Unit System) (cfg : String → Option Importance)
    (fetched : Except Unit (List SovereigntyStructure)) :
    (get_adm_status alliance_id include_tcus getSys cfg fetched).isSome =
      true := by
  unfold get_adm_status
  exact adm_fold_some getSys cfg _
    (fun s hs => mem_sovFilter_isSome hs) []
